import Mathlib

/-!
Verification of the tg2tiktok-poster pipeline against its specification.

The Python modules under `app/` are shallowly embedded as executable Lean
definitions: the SQLAlchemy session is modelled as explicit list-valued
state, datetimes as integer epoch seconds, Python dict payloads as an
inductive JSON value type, and fallible operations as `Except` values.
Definition names follow the Python names where Lean allows it.
-/

set_option maxRecDepth 4000

/-! ## Python string primitives -/

/-- ASCII lower-casing of one character, as Python `str.lower` acts on the
ASCII range (all marker matching in the code is over ASCII markers). -/
def lowerChar (c : Char) : Char :=
  if 'A' ≤ c ∧ c ≤ 'Z' then Char.ofNat (c.toNat + 32) else c

/-- Model of Python `str.lower` (ASCII range). -/
def lowerStr (s : String) : String :=
  String.mk (s.data.map lowerChar)

/-- Whether the first character list starts the second one. -/
def leadsChars : List Char → List Char → Bool
  | [], _ => true
  | _ :: _, [] => false
  | a :: as, b :: bs => a == b && leadsChars as bs

/-- Whether the first character list occurs contiguously inside the second. -/
def subChars (needle : List Char) : List Char → Bool
  | [] => leadsChars needle []
  | c :: rest => leadsChars needle (c :: rest) || subChars needle rest

/-- Model of the Python substring test `needle in hay`. -/
def strContainsSub (hay needle : String) : Bool :=
  subChars needle.data hay.data

/-- Drop leading whitespace characters. -/
def dropLeadWs : List Char → List Char
  | [] => []
  | c :: rest => if c.isWhitespace then dropLeadWs rest else c :: rest

/-- Model of Python `str.strip()` (ASCII whitespace): drop whitespace on
both ends. -/
def pyStrip (s : String) : String :=
  String.mk ((dropLeadWs ((dropLeadWs s.data).reverse)).reverse)

/-! ## JSON-like payload values (Python dict / list / str / int / None) -/

/-- Decoded JSON payload values as the Python code manipulates them. -/
inductive JValue where
  | null : JValue
  | str : String → JValue
  | num : Int → JValue
  | arr : List JValue → JValue
  | obj : List (String × JValue) → JValue

/-- A single-quote character, used by Python `repr` of strings. -/
def squote : String := String.singleton (Char.ofNat 39)

mutual

/-- Model of Python `str()`/`repr()` on a decoded JSON value; containers
render as Python dict/list literals, `None` renders as the word None. -/
def pyRepr : JValue → String
  | JValue.null => "None"
  | JValue.str s => squote ++ s ++ squote
  | JValue.num n => toString n
  | JValue.arr xs => "[" ++ pyReprList xs ++ "]"
  | JValue.obj fs => "\x7b" ++ pyReprFields fs ++ "\x7d"

/-- Comma-joined `repr` of list elements. -/
def pyReprList : List JValue → String
  | [] => ""
  | [x] => pyRepr x
  | x :: y :: rest => pyRepr x ++ ", " ++ pyReprList (y :: rest)

/-- Comma-joined `repr` of dict entries. -/
def pyReprFields : List (String × JValue) → String
  | [] => ""
  | [kv] => squote ++ kv.1 ++ squote ++ ": " ++ pyRepr kv.2
  | kv :: kw :: rest =>
      squote ++ kv.1 ++ squote ++ ": " ++ pyRepr kv.2 ++ ", " ++ pyReprFields (kw :: rest)

end

/-- Model of Python `str(value)`: strings render bare, everything else as
its `repr`. -/
def pyStr : JValue → String
  | JValue.str s => s
  | v => pyRepr v

/-- Model of Python `dict.get(key)` over a decoded JSON object (dict keys
are unique, so first-match lookup coincides with dict lookup). -/
def pyGet (fields : List (String × JValue)) (k : String) : Option JValue :=
  (fields.find? (fun kv => kv.1 == k)).map (fun kv => kv.2)

/-- Python truthiness of a decoded JSON value. -/
def jTruthy : JValue → Bool
  | JValue.null => false
  | JValue.str s => !(s == "")
  | JValue.num n => !(n == 0)
  | JValue.arr xs => !xs.isEmpty
  | JValue.obj fs => !fs.isEmpty

/-! ## app/tiktok/client.py: TikTokAPIError and its classifier -/

/-- Embedding of `TikTokAPIError`: the exception message, the optional
HTTP status code, and the decoded payload dict (the constructor replaces
a missing payload with the empty dict). -/
structure TTError where
  message : String
  status_code : Option Int
  payload : List (String × JValue)

/-- The marker tuple of `TikTokAPIError.is_unsupported_or_permission`. -/
def ttMarkers : List String :=
  ["unsupported", "not support", "permission", "scope",
   "forbidden", "insufficient", "not authorized", "not available"]

/-- Embedding of `TikTokAPIError.is_unsupported_or_permission`
(app/tiktok/client.py): status 403/404, else a case-insensitive marker
match against `str(self)` (the message), else against `str(self.payload)`. -/
def TTError.is_unsupported_or_permission (e : TTError) : Bool :=
  let text := lowerStr e.message
  if e.status_code = some 403 ∨ e.status_code = some 404 then true
  else if ttMarkers.any (fun m => strContainsSub text m) then true
  else
    let error_text := lowerStr (pyRepr (JValue.obj e.payload))
    ttMarkers.any (fun m => strContainsSub error_text m)

/-- The classifier condition exactly as the specification words it: HTTP
status 403 or 404, or the message or payload contains one of the eight
markers case-insensitively. -/
def specPermissionUnsupported (e : TTError) : Prop :=
  e.status_code = some 403 ∨ e.status_code = some 404 ∨
    ∃ m ∈ ttMarkers,
      strContainsSub (lowerStr e.message) m = true ∨
      strContainsSub (lowerStr (pyRepr (JValue.obj e.payload))) m = true

/-! ## app/tiktok/video_posting.py -/

/-- Embedding of the `PublishResult` dataclass. -/
structure PublishResult where
  mode : String
  publish_id : Option String
  post_id : Option String
deriving DecidableEq

/-- Embedding of `_string_or_none` applied to a `dict.get` result: a
missing key or a JSON null yields none, otherwise the stripped `str()`
rendering, with the empty result collapsed to none. -/
def string_or_none : Option JValue → Option String
  | none => none
  | some JValue.null => none
  | some v => let s := pyStrip (pyStr v); if s = "" then none else some s

/-- A value returned by a dict lookup is structurally smaller than the
dict, which justifies the recursion of `_extract_upload_url`. -/
theorem sizeOf_pyGet_lt {fields : List (String × JValue)} {k : String} {v : JValue}
    (h : pyGet fields k = some v) : sizeOf v < sizeOf fields := by
  unfold pyGet at h
  cases hf : fields.find? (fun kv => kv.1 == k) with
  | none => rw [hf] at h; simp at h
  | some kv =>
    rw [hf] at h
    have hv : kv.2 = v := by simpa using h
    subst hv
    have hmem := List.mem_of_find?_eq_some hf
    have h1 := List.sizeOf_lt_of_mem hmem
    have h2 : sizeOf kv.2 < sizeOf kv := by
      cases kv with
      | mk a b => simp only [Prod.mk.sizeOf_spec]; omega
    omega

/-- Embedding of `_extract_upload_url`: a scalar `upload_url`, else the
first non-empty entry of `upload_urls`, else recursion into a dict-valued
`source_info`. -/
def extract_upload_url (data : List (String × JValue)) : Option String :=
  match string_or_none (pyGet data "upload_url") with
  | some single => some single
  | none =>
    let fromList :=
      match pyGet data "upload_urls" with
      | some (JValue.arr items) => items.findSome? (fun item => string_or_none (some item))
      | _ => none
    match fromList with
    | some v => some v
    | none =>
      match hsi : pyGet data "source_info" with
      | some (JValue.obj inner) => extract_upload_url inner
      | _ => none
termination_by sizeOf data
decreasing_by
  have h1 := sizeOf_pyGet_lt hsi
  have h2 : sizeOf inner < sizeOf (JValue.obj inner) := by
    simp only [JValue.obj.sizeOf_spec]; omega
  omega

/-- Embedding of `_extract_publish_id`: `publish_id`, else `video_id`,
else `creation_id`. -/
def extract_publish_id (data : List (String × JValue)) : Option String :=
  (string_or_none (pyGet data "publish_id")).orElse fun _ =>
    (string_or_none (pyGet data "video_id")).orElse fun _ =>
      string_or_none (pyGet data "creation_id")

/-- The sink-platform HTTP calls consumed by `_publish_with_mode`, as
response oracles: the init response per mode, the binary-upload outcome
per upload URL, and the finalize response per (publish id, mode). -/
structure VideoEnv where
  init : String → Except TTError (List (String × JValue))
  upload : String → Except TTError Unit
  finalize : String → String → Except TTError (List (String × JValue))

/-- Embedding of `TikTokClient.finalize_video`: with a falsy publish id
the method returns the empty dict without issuing the HTTP request. -/
def finalize_video (env : VideoEnv) (publish_id : Option String) (mode : String) :
    Except TTError (List (String × JValue)) :=
  match publish_id with
  | none => Except.ok []
  | some s => if s = "" then Except.ok [] else env.finalize s mode

/-- Embedding of `_publish_with_mode`: init, upload-url extraction (error
when absent), publish-id extraction, binary upload, finalize, and the
post-id fallback chain post_id → item_id → publish id. -/
def publish_with_mode (env : VideoEnv) (mode : String) :
    Except TTError PublishResult :=
  match env.init mode with
  | Except.error e => Except.error e
  | Except.ok init_data =>
    match extract_upload_url init_data with
    | none =>
        Except.error
          (TTError.mk "TikTok response does not contain upload_url" none init_data)
    | some upload_url =>
      match env.upload upload_url with
      | Except.error e => Except.error e
      | Except.ok _ =>
        match finalize_video env (extract_publish_id init_data) mode with
        | Except.error e => Except.error e
        | Except.ok finalize_data =>
          Except.ok (PublishResult.mk mode (extract_publish_id init_data)
            (match string_or_none (pyGet finalize_data "post_id") with
             | some v => some v
             | none =>
               match string_or_none (pyGet finalize_data "item_id") with
               | some v => some v
               | none => extract_publish_id init_data))

/-- Embedding of `publish_video_file`: attempt the requested mode; on a
`TikTokAPIError` retry the full sequence with mode draft exactly when the
requested mode was direct, the fallback policy is on, and the error is
classified permission/unsupported; otherwise re-raise. -/
def publish_video_file (env : VideoEnv) (requested_mode : String) (fallback_to_draft : Bool) :
    Except TTError PublishResult :=
  match publish_with_mode env requested_mode with
  | Except.ok r => Except.ok r
  | Except.error exc =>
      if requested_mode = "direct" ∧ fallback_to_draft = true ∧
          exc.is_unsupported_or_permission = true then
        publish_with_mode env "draft"
      else
        Except.error exc

/-! ## Claim C7 -/

/-- C7: the permission/unsupported classifier returns true if and only if
the HTTP status is 403 or 404, or the (lower-cased) message or payload
rendering contains one of the eight markers. -/
theorem tiktok_error_classifier_iff (e : TTError) :
    e.is_unsupported_or_permission = true ↔ specPermissionUnsupported e := by
  unfold TTError.is_unsupported_or_permission specPermissionUnsupported
  by_cases hcode : e.status_code = some 403 ∨ e.status_code = some 404
  · simp only [if_pos hcode, true_iff]
    rcases hcode with h | h
    · exact Or.inl h
    · exact Or.inr (Or.inl h)
  · simp only [if_neg hcode]
    by_cases hmsg : ttMarkers.any (fun m => strContainsSub (lowerStr e.message) m) = true
    · rw [if_pos hmsg]
      simp only [true_iff]
      rcases List.any_eq_true.mp hmsg with ⟨m, hm, hmm⟩
      exact Or.inr (Or.inr ⟨m, hm, Or.inl hmm⟩)
    · rw [if_neg hmsg, List.any_eq_true]
      constructor
      · rintro ⟨m, hm, hp⟩
        exact Or.inr (Or.inr ⟨m, hm, Or.inr hp⟩)
      · rintro (hc | hc | ⟨m, hm, hmp | hmp⟩)
        · exact absurd (Or.inl hc) hcode
        · exact absurd (Or.inr hc) hcode
        · exact absurd (List.any_eq_true.mpr ⟨m, hm, hmp⟩) hmsg
        · exact ⟨m, hm, hmp⟩

/-- A successful run of the three-step sequence reports the mode it was
invoked with. -/
theorem publish_with_mode_reports_mode (env : VideoEnv) (mode : String)
    (r : PublishResult) (h : publish_with_mode env mode = Except.ok r) :
    r.mode = mode := by
  unfold publish_with_mode at h
  cases hinit : env.init mode with
  | error e => rw [hinit] at h; exact absurd h (by simp)
  | ok init_data =>
    rw [hinit] at h; dsimp only at h
    cases hurl : extract_upload_url init_data with
    | none => rw [hurl] at h; exact absurd h (by simp)
    | some upload_url =>
      rw [hurl] at h; dsimp only at h
      cases hup : env.upload upload_url with
      | error e => rw [hup] at h; exact absurd h (by simp)
      | ok u =>
        rw [hup] at h; dsimp only at h
        cases hfin : finalize_video env (extract_publish_id init_data) mode with
        | error e => rw [hfin] at h; exact absurd h (by simp)
        | ok finalize_data =>
          rw [hfin] at h; dsimp only at h
          injection h with h2
          rw [← h2]

/-! ## Claim C8 -/

/-- C8: `publish_video_file` retries the full init/upload/finalize
sequence with mode draft exactly when the requested mode was direct, the
fallback policy is on, and the raised error is classified
permission/unsupported; any other failure propagates unchanged; a
successful run (fallback included) reports the mode it ran with. -/
theorem publish_video_file_draft_fallback (env : VideoEnv) (m : String) (fb : Bool) :
    (∀ r, publish_with_mode env m = Except.ok r →
        publish_video_file env m fb = Except.ok r ∧ r.mode = m)
    ∧ (∀ e, publish_with_mode env m = Except.error e →
        ((m = "direct" ∧ fb = true ∧ e.is_unsupported_or_permission = true) →
            publish_video_file env m fb = publish_with_mode env "draft")
        ∧ (¬(m = "direct" ∧ fb = true ∧ e.is_unsupported_or_permission = true) →
            publish_video_file env m fb = Except.error e)) := by
  refine ⟨fun r h => ⟨?_, publish_with_mode_reports_mode env m r h⟩, fun e h => ⟨?_, ?_⟩⟩
  · unfold publish_video_file
    rw [h]
  · intro hc
    unfold publish_video_file
    rw [h]; dsimp only
    rw [if_pos hc]
  · intro hc
    unfold publish_video_file
    rw [h]; dsimp only
    rw [if_neg hc]

/-- An init oracle that rejects direct mode with HTTP 403 and accepts
draft mode, exercising the draft fallback. -/
def c8Env : VideoEnv :=
  VideoEnv.mk
    (fun mode =>
      if mode = "direct" then
        Except.error (TTError.mk "TikTok API HTTP 403" (some 403) [])
      else
        Except.ok
          [("upload_url", JValue.str "https://example.test/upload"),
           ("publish_id", JValue.str "pid-1")])
    (fun _ => Except.ok ())
    (fun _ _ => Except.ok [("post_id", JValue.str "post-9")])

/-- Witness for C8: with the concrete oracle, direct mode fails with a
classified 403 and the call is retried as a draft-mode run that succeeds
with mode draft. -/
theorem publish_video_file_draft_fallback_witness :
    publish_video_file c8Env "direct" true = publish_with_mode c8Env "draft" ∧
    publish_with_mode c8Env "draft" =
      Except.ok (PublishResult.mk "draft" (some "pid-1") (some "post-9")) := by
  constructor
  · exact
      ((publish_video_file_draft_fallback c8Env "direct" true).2
          (TTError.mk "TikTok API HTTP 403" (some 403) []) rfl).1
        ⟨rfl, rfl, rfl⟩
  · have h1 : extract_upload_url
        [("upload_url", JValue.str "https://example.test/upload"),
         ("publish_id", JValue.str "pid-1")] = some "https://example.test/upload" := by
      rw [extract_upload_url.eq_def]; rfl
    have h2 : c8Env.init "draft" =
        Except.ok
          [("upload_url", JValue.str "https://example.test/upload"),
           ("publish_id", JValue.str "pid-1")] := rfl
    unfold publish_with_mode
    rw [h2]; dsimp only
    rw [h1]; rfl

/-! ## app/queue/tasks.py: delivery bookkeeping -/

/-- The three Delivery status strings the code ever writes. -/
inductive DStatus where
  | pending : DStatus
  | sent : DStatus
  | failed : DStatus
deriving DecidableEq

/-- Embedding of the Delivery ORM row (app/models.py): identified by the
unique pair (source_key, account_label). -/
structure DeliveryRow where
  content_item_id : Nat
  source_key : String
  account_label : String
  status : DStatus
  error_text : Option String
  tiktok_post_id : Option String
deriving DecidableEq

/-- The column pair covered by the unique constraint
`uq_delivery_source_account`. -/
def deliveryKey (r : DeliveryRow) : String × String :=
  (r.source_key, r.account_label)

/-- The `select(Delivery).where(source_key, account_label)` lookup. -/
def find_delivery (db : List DeliveryRow) (k l : String) : Option DeliveryRow :=
  db.find? (fun r => r.source_key == k && r.account_label == l)

/-- In-place mutation of the row keyed (k, l), as the ORM session applies
attribute writes to the selected row. -/
def update_delivery (db : List DeliveryRow) (k l : String)
    (f : DeliveryRow → DeliveryRow) : List DeliveryRow :=
  db.map (fun r => if r.source_key == k && r.account_label == l then f r else r)

/-- Model of the Python slice `s[:2000]`. -/
def pyTake (n : Nat) (s : String) : String :=
  String.mk (s.data.take n)

/-- Embedding of `_pick_result_post_id`: first truthy of the result dict
keys post_id, item_id, publish_id, rendered with `str`. -/
def pick_result_post_id (result : List (String × JValue)) : Option String :=
  ["post_id", "item_id", "publish_id"].findSome? (fun key =>
    match pyGet result key with
    | some v => if jTruthy v then some (pyStr v) else none
    | none => none)

/-- The dict `publish` (app/tiktok/publisher.py) returns for a video
publish: mode, publish_id and post_id of the `PublishResult`. -/
def publish_result_dict (r : PublishResult) : List (String × JValue) :=
  [("mode", JValue.str r.mode),
   ("publish_id", match r.publish_id with | none => JValue.null | some s => JValue.str s),
   ("post_id", match r.post_id with | none => JValue.null | some s => JValue.str s)]

/-- The successful-publish row mutation of `_deliver_to_account`: status
sent, error cleared, post id from `_pick_result_post_id`. -/
def mark_sent (result : List (String × JValue)) (r : DeliveryRow) : DeliveryRow :=
  { r with status := DStatus.sent, error_text := none,
           tiktok_post_id := pick_result_post_id result }

/-- The failed-publish row mutation of `_deliver_to_account`: status
failed, error text truncated to 2000 characters. -/
def mark_failed (err : String) (r : DeliveryRow) : DeliveryRow :=
  { r with status := DStatus.failed, error_text := some (pyTake 2000 err) }

/-- Embedding of `_deliver_to_account` for the single consumer task: look
the Delivery up by (source_key, account_label); skip a sent row without
publishing; create a pending row when absent (sequentially the unique
index can not fire, so the IntegrityError re-read branch is not taken);
then publish and record the outcome. The Bool reports whether a publish
attempt was made. The publish outcome is the oracle argument. -/
def deliver_to_account (db : List DeliveryRow) (content_item_id : Nat)
    (source_key account_label : String)
    (publish_outcome : Except String (List (String × JValue))) :
    List DeliveryRow × Bool :=
  match find_delivery db source_key account_label with
  | some d =>
    if d.status = DStatus.sent then (db, false)
    else
      match publish_outcome with
      | Except.ok result =>
          (update_delivery db source_key account_label (mark_sent result), true)
      | Except.error e =>
          (update_delivery db source_key account_label (mark_failed e), true)
  | none =>
    let db1 := db ++
      [DeliveryRow.mk content_item_id source_key account_label DStatus.pending none none]
    match publish_outcome with
    | Except.ok result =>
        (update_delivery db1 source_key account_label (mark_sent result), true)
    | Except.error e =>
        (update_delivery db1 source_key account_label (mark_failed e), true)

/-- One step of `_mark_all_deliveries_failed`: look up the Delivery, create
it when absent, and set status failed with truncated error text in either
case. -/
def upsert_failed (db : List DeliveryRow) (content_item_id : Nat)
    (k l err : String) : List DeliveryRow :=
  match find_delivery db k l with
  | some _ => update_delivery db k l (mark_failed err)
  | none =>
      db ++ [DeliveryRow.mk content_item_id k l DStatus.failed
        (some (pyTake 2000 err)) none]

/-- Embedding of `_mark_all_deliveries_failed` over the resolved target
account labels. -/
def mark_all_deliveries_failed (db : List DeliveryRow) (content_item_id : Nat)
    (k : String) (labels : List String) (err : String) : List DeliveryRow :=
  labels.foldl (fun d l => upsert_failed d content_item_id k l err) db

/-- The per-account delivery loop of `process_content_item`, threading the
Delivery table and the log of labels for which a publish was attempted. -/
def deliver_fold (content_item_id : Nat) (k : String)
    (outcomes : String → Except String (List (String × JValue)))
    (labels : List String) (st : List DeliveryRow × List String) :
    List DeliveryRow × List String :=
  labels.foldl (fun acc l =>
    match deliver_to_account acc.1 content_item_id k l (outcomes l) with
    | (d, true) => (d, acc.2 ++ [l])
    | (d, false) => (d, acc.2)) st

/-- Embedding of `process_content_item` for an existing ContentItem: on a
materialization failure mark every target delivery failed and stop; else
deliver to each resolved account in order. The returned list logs the
labels for which a publish attempt was made. The per-label publish
outcome is the oracle argument. -/
def process_content_item (db : List DeliveryRow) (content_item_id : Nat)
    (source_key : String) (materialize : Except String Unit)
    (labels : List String)
    (outcomes : String → Except String (List (String × JValue))) :
    List DeliveryRow × List String :=
  match materialize with
  | Except.error e =>
      (mark_all_deliveries_failed db content_item_id source_key labels
        ("Telegram download failed: " ++ e), [])
  | Except.ok _ =>
      deliver_fold content_item_id source_key outcomes labels (db, [])

/-! ## Delivery bookkeeping lemmas -/

/-- The row-lookup predicate holds exactly on rows with the given key. -/
theorem delivery_pred_iff (r : DeliveryRow) (k l : String) :
    ((r.source_key == k && r.account_label == l) = true) ↔ deliveryKey r = (k, l) := by
  simp [deliveryKey, Prod.ext_iff]

theorem deliveryKey_mark_sent (res : List (String × JValue)) (r : DeliveryRow) :
    deliveryKey (mark_sent res r) = deliveryKey r := rfl

theorem deliveryKey_mark_failed (e : String) (r : DeliveryRow) :
    deliveryKey (mark_failed e r) = deliveryKey r := rfl

/-- A key-preserving row mutation leaves the key column of the table
unchanged. -/
theorem update_delivery_map_key (db : List DeliveryRow) (k l : String)
    (f : DeliveryRow → DeliveryRow) (hf : ∀ r, deliveryKey (f r) = deliveryKey r) :
    (update_delivery db k l f).map deliveryKey = db.map deliveryKey := by
  unfold update_delivery
  rw [List.map_map]
  apply List.map_congr_left
  intro r hr
  by_cases hp : (r.source_key == k && r.account_label == l) = true
  · simp only [Function.comp_apply, if_pos hp, hf r]
  · simp only [Function.comp_apply, if_neg hp]

/-- Looking up the mutated key returns the mutated row. -/
theorem find_delivery_update_self (db : List DeliveryRow) (k l : String)
    (f : DeliveryRow → DeliveryRow) (hf : ∀ r, deliveryKey (f r) = deliveryKey r) :
    find_delivery (update_delivery db k l f) k l = (find_delivery db k l).map f := by
  induction db with
  | nil => rfl
  | cons r rest ih =>
    unfold find_delivery update_delivery at *
    simp only [List.map_cons]
    by_cases hp : (r.source_key == k && r.account_label == l) = true
    · rw [if_pos hp]
      have hk : (f r).source_key = r.source_key := congrArg Prod.fst (hf r)
      have hl : (f r).account_label = r.account_label := congrArg Prod.snd (hf r)
      have hp2 : ((f r).source_key == k && (f r).account_label == l) = true := by
        rw [hk, hl]; exact hp
      rw [List.find?_cons, List.find?_cons, hp, hp2]
      rfl
    · rw [if_neg hp, List.find?_cons, List.find?_cons,
        Bool.eq_false_iff.mpr hp]
      exact ih

/-- Looking up a different key is unaffected by the mutation. -/
theorem find_delivery_update_other (db : List DeliveryRow) (k l k2 l2 : String)
    (f : DeliveryRow → DeliveryRow) (hf : ∀ r, deliveryKey (f r) = deliveryKey r)
    (hne : ¬(k2 = k ∧ l2 = l)) :
    find_delivery (update_delivery db k l f) k2 l2 = find_delivery db k2 l2 := by
  induction db with
  | nil => rfl
  | cons r rest ih =>
    unfold find_delivery update_delivery at *
    simp only [List.map_cons]
    by_cases hq : (r.source_key == k2 && r.account_label == l2) = true
    · have hkey : deliveryKey r = (k2, l2) := (delivery_pred_iff r k2 l2).mp hq
      have hp : ¬(r.source_key == k && r.account_label == l) = true := by
        intro hp
        have h2 := (delivery_pred_iff r k l).mp hp
        rw [hkey] at h2
        exact hne ⟨congrArg Prod.fst h2, congrArg Prod.snd h2⟩
      rw [if_neg hp, List.find?_cons, List.find?_cons, hq]
    · have hq2 : ¬((if (r.source_key == k && r.account_label == l) = true then f r
          else r).source_key == k2 &&
          (if (r.source_key == k && r.account_label == l) = true then f r
            else r).account_label == l2) = true := by
        intro hcontra
        apply hq
        have h2 := (delivery_pred_iff _ k2 l2).mp hcontra
        apply (delivery_pred_iff r k2 l2).mpr
        rw [← h2]
        by_cases hp : (r.source_key == k && r.account_label == l) = true
        · rw [if_pos hp, hf r]
        · rw [if_neg hp]
      rw [List.find?_cons, List.find?_cons, Bool.eq_false_iff.mpr hq2,
        Bool.eq_false_iff.mpr hq]
      exact ih

/-- A key appears in the key column exactly when its lookup succeeds. -/
theorem mem_key_iff_find_delivery (db : List DeliveryRow) (k l : String) :
    (k, l) ∈ db.map deliveryKey ↔ find_delivery db k l ≠ none := by
  rw [List.mem_map]
  unfold find_delivery
  rw [Ne, ← Option.not_isSome_iff_eq_none, not_not, List.find?_isSome]
  constructor
  · rintro ⟨r, hr, hkey⟩
    exact ⟨r, hr, (delivery_pred_iff r k l).mpr hkey⟩
  · rintro ⟨r, hr, hp⟩
    exact ⟨r, hr, (delivery_pred_iff r k l).mp hp⟩

/-- The freshly inserted pending row is found under its own key. -/
theorem find_delivery_new_row (cid : Nat) (k l : String) (st : DStatus)
    (et pid : Option String) :
    find_delivery [DeliveryRow.mk cid k l st et pid] k l =
      some (DeliveryRow.mk cid k l st et pid) := by
  unfold find_delivery
  rw [List.find?_cons]
  have hp : ((DeliveryRow.mk cid k l st et pid).source_key == k &&
      (DeliveryRow.mk cid k l st et pid).account_label == l) = true := by
    simp
  rw [hp]

/-- A sent Delivery short-circuits `_deliver_to_account`: no state change
and no publish attempt. -/
theorem deliver_sent_skip (db : List DeliveryRow) (cid : Nat) (k l : String)
    (out : Except String (List (String × JValue))) (d : DeliveryRow)
    (h : find_delivery db k l = some d) (hs : d.status = DStatus.sent) :
    deliver_to_account db cid k l out = (db, false) := by
  unfold deliver_to_account
  rw [h]; dsimp only
  rw [if_pos hs]

/-- When the Delivery already exists the delivery step leaves the key
column unchanged. -/
theorem deliver_map_key_of_found (db : List DeliveryRow) (cid : Nat) (k l : String)
    (out : Except String (List (String × JValue))) (d : DeliveryRow)
    (h : find_delivery db k l = some d) :
    (deliver_to_account db cid k l out).1.map deliveryKey = db.map deliveryKey := by
  unfold deliver_to_account
  rw [h]; dsimp only
  by_cases hs : d.status = DStatus.sent
  · rw [if_pos hs]
  · rw [if_neg hs]
    cases out with
    | ok result =>
        exact update_delivery_map_key db k l (mark_sent result) (deliveryKey_mark_sent result)
    | error e =>
        exact update_delivery_map_key db k l (mark_failed e) (deliveryKey_mark_failed e)

/-- When the Delivery is absent the delivery step appends exactly the one
new key. -/
theorem deliver_map_key_of_missing (db : List DeliveryRow) (cid : Nat) (k l : String)
    (out : Except String (List (String × JValue)))
    (h : find_delivery db k l = none) :
    (deliver_to_account db cid k l out).1.map deliveryKey =
      db.map deliveryKey ++ [(k, l)] := by
  unfold deliver_to_account
  rw [h]; dsimp only
  cases out with
  | ok result =>
      rw [update_delivery_map_key _ k l (mark_sent result) (deliveryKey_mark_sent result)]
      rw [List.map_append]
      rfl
  | error e =>
      rw [update_delivery_map_key _ k l (mark_failed e) (deliveryKey_mark_failed e)]
      rw [List.map_append]
      rfl

/-- The delivered key is present after the delivery step. -/
theorem deliver_mem_key (db : List DeliveryRow) (cid : Nat) (k l : String)
    (out : Except String (List (String × JValue))) :
    (k, l) ∈ (deliver_to_account db cid k l out).1.map deliveryKey := by
  cases h : find_delivery db k l with
  | some d =>
      rw [deliver_map_key_of_found db cid k l out d h]
      rw [mem_key_iff_find_delivery, h]
      simp
  | none =>
      rw [deliver_map_key_of_missing db cid k l out h]
      simp

/-- Keys present before a delivery step stay present after it. -/
theorem deliver_key_mono (db : List DeliveryRow) (cid : Nat) (k l : String)
    (out : Except String (List (String × JValue))) (key : String × String)
    (h : key ∈ db.map deliveryKey) :
    key ∈ (deliver_to_account db cid k l out).1.map deliveryKey := by
  cases hf : find_delivery db k l with
  | some d => rw [deliver_map_key_of_found db cid k l out d hf]; exact h
  | none => rw [deliver_map_key_of_missing db cid k l out hf]; exact List.mem_append_left _ h

/-- A delivery step keeps the key column duplicate-free. -/
theorem deliver_key_nodup (db : List DeliveryRow) (cid : Nat) (k l : String)
    (out : Except String (List (String × JValue)))
    (h : (db.map deliveryKey).Nodup) :
    ((deliver_to_account db cid k l out).1.map deliveryKey).Nodup := by
  cases hf : find_delivery db k l with
  | some d => rw [deliver_map_key_of_found db cid k l out d hf]; exact h
  | none =>
      rw [deliver_map_key_of_missing db cid k l out hf]
      have hnot : (k, l) ∉ db.map deliveryKey := by
        rw [mem_key_iff_find_delivery, hf]
        simp
      simp [List.nodup_append, h, hnot]

/-- A sent Delivery row survives any delivery step untouched. -/
theorem deliver_preserves_sent (db : List DeliveryRow) (cid : Nat) (k2 l2 : String)
    (out : Except String (List (String × JValue))) (k l : String) (d : DeliveryRow)
    (h : find_delivery db k l = some d) (hs : d.status = DStatus.sent) :
    find_delivery (deliver_to_account db cid k2 l2 out).1 k l = some d := by
  by_cases he : k2 = k ∧ l2 = l
  · obtain ⟨hk, hl⟩ := he
    subst hk; subst hl
    rw [deliver_sent_skip db cid k2 l2 out d h hs]
    exact h
  · have hne : ¬(k = k2 ∧ l = l2) := by
      intro hc
      exact he ⟨hc.1.symm, hc.2.symm⟩
    unfold deliver_to_account
    cases h2 : find_delivery db k2 l2 with
    | some d2 =>
      dsimp only
      by_cases hs2 : d2.status = DStatus.sent
      · rw [if_pos hs2]; exact h
      · rw [if_neg hs2]
        cases out with
        | ok result =>
            rw [find_delivery_update_other db k2 l2 k l (mark_sent result)
              (deliveryKey_mark_sent result) hne]
            exact h
        | error e =>
            rw [find_delivery_update_other db k2 l2 k l (mark_failed e)
              (deliveryKey_mark_failed e) hne]
            exact h
    | none =>
      dsimp only
      have happ : find_delivery
          (db ++ [DeliveryRow.mk cid k2 l2 DStatus.pending none none]) k l = some d := by
        unfold find_delivery at *
        rw [List.find?_append, h]
        rfl
      cases out with
      | ok result =>
          rw [find_delivery_update_other _ k2 l2 k l (mark_sent result)
            (deliveryKey_mark_sent result) hne]
          exact happ
      | error e =>
          rw [find_delivery_update_other _ k2 l2 k l (mark_failed e)
            (deliveryKey_mark_failed e) hne]
          exact happ

/-- A successful publish against a not-yet-sent Delivery marks the row
sent, clears the error and stores `_pick_result_post_id` of the result. -/
theorem deliver_ok_marks_sent (db : List DeliveryRow) (cid : Nat) (k l : String)
    (result : List (String × JValue))
    (h : ∀ d, find_delivery db k l = some d → d.status ≠ DStatus.sent) :
    find_delivery (deliver_to_account db cid k l (Except.ok result)).1 k l =
        some (mark_sent result
          ((find_delivery db k l).getD (DeliveryRow.mk cid k l DStatus.pending none none)))
      ∧ (deliver_to_account db cid k l (Except.ok result)).2 = true := by
  cases hf : find_delivery db k l with
  | some d =>
    have hs := h d hf
    unfold deliver_to_account
    rw [hf]; dsimp only
    rw [if_neg hs]; dsimp only
    constructor
    · rw [find_delivery_update_self db k l (mark_sent result) (deliveryKey_mark_sent result),
        hf]
      rfl
    · rfl
  | none =>
    unfold deliver_to_account
    rw [hf]; dsimp only
    constructor
    · rw [find_delivery_update_self _ k l (mark_sent result) (deliveryKey_mark_sent result)]
      have happ : find_delivery
          (db ++ [DeliveryRow.mk cid k l DStatus.pending none none]) k l =
          some (DeliveryRow.mk cid k l DStatus.pending none none) := by
        unfold find_delivery at *
        rw [List.find?_append, hf]
        have := find_delivery_new_row cid k l DStatus.pending none none
        unfold find_delivery at this
        rw [this]
        rfl
      rw [happ]
      rfl
    · rfl

/-- One `_mark_all_deliveries_failed` step leaves the key column unchanged
when the key is present. -/
theorem upsert_failed_map_key_of_mem (db : List DeliveryRow) (cid : Nat)
    (k l err : String) (h : (k, l) ∈ db.map deliveryKey) :
    (upsert_failed db cid k l err).map deliveryKey = db.map deliveryKey := by
  unfold upsert_failed
  cases hf : find_delivery db k l with
  | some d =>
      dsimp only
      exact update_delivery_map_key db k l (mark_failed err) (deliveryKey_mark_failed err)
  | none =>
      rw [mem_key_iff_find_delivery, hf] at h
      exact absurd rfl h

/-- One `_mark_all_deliveries_failed` step appends exactly the missing
key otherwise. -/
theorem upsert_failed_map_key_of_missing (db : List DeliveryRow) (cid : Nat)
    (k l err : String) (h : find_delivery db k l = none) :
    (upsert_failed db cid k l err).map deliveryKey = db.map deliveryKey ++ [(k, l)] := by
  unfold upsert_failed
  rw [h]; dsimp only
  rw [List.map_append]
  rfl

/-- Keys present before an upsert stay present. -/
theorem upsert_failed_key_mono (db : List DeliveryRow) (cid : Nat)
    (k l err : String) (key : String × String) (h : key ∈ db.map deliveryKey) :
    key ∈ (upsert_failed db cid k l err).map deliveryKey := by
  cases hf : find_delivery db k l with
  | some d =>
      have hmem : (k, l) ∈ db.map deliveryKey := by
        rw [mem_key_iff_find_delivery, hf]; simp
      rw [upsert_failed_map_key_of_mem db cid k l err hmem]
      exact h
  | none =>
      rw [upsert_failed_map_key_of_missing db cid k l err hf]
      exact List.mem_append_left _ h

/-- The upserted key is present after the upsert. -/
theorem upsert_failed_mem_key (db : List DeliveryRow) (cid : Nat)
    (k l err : String) :
    (k, l) ∈ (upsert_failed db cid k l err).map deliveryKey := by
  cases hf : find_delivery db k l with
  | some d =>
      have hmem : (k, l) ∈ db.map deliveryKey := by
        rw [mem_key_iff_find_delivery, hf]; simp
      rw [upsert_failed_map_key_of_mem db cid k l err hmem]
      exact hmem
  | none =>
      rw [upsert_failed_map_key_of_missing db cid k l err hf]
      simp

/-- An upsert keeps the key column duplicate-free. -/
theorem upsert_failed_key_nodup (db : List DeliveryRow) (cid : Nat)
    (k l err : String) (h : (db.map deliveryKey).Nodup) :
    ((upsert_failed db cid k l err).map deliveryKey).Nodup := by
  cases hf : find_delivery db k l with
  | some d =>
      have hmem : (k, l) ∈ db.map deliveryKey := by
        rw [mem_key_iff_find_delivery, hf]; simp
      rw [upsert_failed_map_key_of_mem db cid k l err hmem]
      exact h
  | none =>
      rw [upsert_failed_map_key_of_missing db cid k l err hf]
      have hnot : (k, l) ∉ db.map deliveryKey := by
        rw [mem_key_iff_find_delivery, hf]; simp
      simp [List.nodup_append, h, hnot]

/-- Unfolding one step of the per-account delivery loop. -/
theorem deliver_fold_cons_eq (cid : Nat) (k : String)
    (outs : String → Except String (List (String × JValue)))
    (l0 : String) (rest : List String) (db : List DeliveryRow) (log : List String) :
    deliver_fold cid k outs (l0 :: rest) (db, log) =
      deliver_fold cid k outs rest
        ((deliver_to_account db cid k l0 (outs l0)).1,
          if (deliver_to_account db cid k l0 (outs l0)).2 then log ++ [l0] else log) := by
  unfold deliver_fold
  rw [List.foldl_cons]
  congr 1
  cases hd : deliver_to_account db cid k l0 (outs l0) with
  | mk d b =>
    cases b
    · simp [hd]
    · simp [hd]

/-- The delivery loop keeps the key column duplicate-free. -/
theorem deliver_fold_key_nodup (cid : Nat) (k : String)
    (outs : String → Except String (List (String × JValue))) :
    ∀ (labels : List String) (db : List DeliveryRow) (log : List String),
      (db.map deliveryKey).Nodup →
      ((deliver_fold cid k outs labels (db, log)).1.map deliveryKey).Nodup := by
  intro labels
  induction labels with
  | nil => intro db log h; exact h
  | cons l0 rest ih =>
    intro db log h
    rw [deliver_fold_cons_eq]
    exact ih _ _ (deliver_key_nodup db cid k l0 (outs l0) h)

/-- Keys present before the delivery loop stay present. -/
theorem deliver_fold_key_mono (cid : Nat) (k : String)
    (outs : String → Except String (List (String × JValue))) :
    ∀ (labels : List String) (db : List DeliveryRow) (log : List String)
      (key : String × String), key ∈ db.map deliveryKey →
      key ∈ (deliver_fold cid k outs labels (db, log)).1.map deliveryKey := by
  intro labels
  induction labels with
  | nil => intro db log key h; exact h
  | cons l0 rest ih =>
    intro db log key h
    rw [deliver_fold_cons_eq]
    exact ih _ _ key (deliver_key_mono db cid k l0 (outs l0) key h)

/-- Every label handled by the delivery loop has its key present after
the loop. -/
theorem deliver_fold_mem_key (cid : Nat) (k : String)
    (outs : String → Except String (List (String × JValue))) :
    ∀ (labels : List String) (db : List DeliveryRow) (log : List String)
      (l : String), l ∈ labels →
      (k, l) ∈ (deliver_fold cid k outs labels (db, log)).1.map deliveryKey := by
  intro labels
  induction labels with
  | nil => intro db log l h; exact absurd h (List.not_mem_nil l)
  | cons l0 rest ih =>
    intro db log l h
    rw [deliver_fold_cons_eq]
    rcases List.mem_cons.mp h with h0 | h0
    · subst h0
      exact deliver_fold_key_mono cid k outs rest _ _ (k, l)
        (deliver_mem_key db cid k l (outs l))
    · exact ih _ _ l h0

/-- When every handled key already exists the delivery loop leaves the
key column unchanged: re-processing creates no rows. -/
theorem deliver_fold_keys_frozen (cid : Nat) (k : String)
    (outs : String → Except String (List (String × JValue))) :
    ∀ (labels : List String) (db : List DeliveryRow) (log : List String),
      (∀ l ∈ labels, (k, l) ∈ db.map deliveryKey) →
      (deliver_fold cid k outs labels (db, log)).1.map deliveryKey =
        db.map deliveryKey := by
  intro labels
  induction labels with
  | nil => intro db log _; rfl
  | cons l0 rest ih =>
    intro db log h
    have h0 : (k, l0) ∈ db.map deliveryKey := h l0 (List.mem_cons_self l0 rest)
    rw [mem_key_iff_find_delivery] at h0
    cases hf : find_delivery db k l0 with
    | none => exact absurd hf h0
    | some d =>
      rw [deliver_fold_cons_eq]
      have hkeys := deliver_map_key_of_found db cid k l0 (outs l0) d hf
      rw [ih _ _ (fun l hl => by rw [hkeys]; exact h l (List.mem_cons_of_mem l0 hl)), hkeys]

/-- A sent Delivery row survives the whole delivery loop untouched. -/
theorem deliver_fold_preserves_sent (cid : Nat) (k : String)
    (outs : String → Except String (List (String × JValue))) :
    ∀ (labels : List String) (db : List DeliveryRow) (log : List String)
      (l : String) (d : DeliveryRow),
      find_delivery db k l = some d → d.status = DStatus.sent →
      find_delivery (deliver_fold cid k outs labels (db, log)).1 k l = some d := by
  intro labels
  induction labels with
  | nil => intro db log l d h _; exact h
  | cons l0 rest ih =>
    intro db log l d h hs
    rw [deliver_fold_cons_eq]
    exact ih _ _ l d (deliver_preserves_sent db cid k l0 (outs l0) k l d h hs) hs

/-- The delivery loop never attempts a publish for a label whose Delivery
is already sent. -/
theorem deliver_fold_no_attempt_sent (cid : Nat) (k : String)
    (outs : String → Except String (List (String × JValue))) :
    ∀ (labels : List String) (db : List DeliveryRow) (log : List String)
      (l : String) (d : DeliveryRow),
      find_delivery db k l = some d → d.status = DStatus.sent → l ∉ log →
      l ∉ (deliver_fold cid k outs labels (db, log)).2 := by
  intro labels
  induction labels with
  | nil => intro db log l d _ _ hlog; exact hlog
  | cons l0 rest ih =>
    intro db log l d h hs hlog
    rw [deliver_fold_cons_eq]
    by_cases he : l0 = l
    · subst he
      rw [deliver_sent_skip db cid k l0 (outs l0) d h hs]
      exact ih _ _ l0 d h hs hlog
    · have hlog2 : l ∉ (if (deliver_to_account db cid k l0 (outs l0)).2
          then log ++ [l0] else log) := by
        by_cases hb : (deliver_to_account db cid k l0 (outs l0)).2 = true
        · rw [if_pos hb]
          intro hmem
          rcases List.mem_append.mp hmem with hm | hm
          · exact hlog hm
          · exact he (List.mem_singleton.mp hm).symm
        · rw [if_neg hb]
          exact hlog
      exact ih _ _ l d
        (deliver_preserves_sent db cid k l0 (outs l0) k l d h hs) hs hlog2

/-- Keys present before `_mark_all_deliveries_failed` stay present. -/
theorem markall_key_mono (cid : Nat) (k err : String) :
    ∀ (labels : List String) (db : List DeliveryRow) (key : String × String),
      key ∈ db.map deliveryKey →
      key ∈ (mark_all_deliveries_failed db cid k labels err).map deliveryKey := by
  intro labels
  induction labels with
  | nil => intro db key h; exact h
  | cons l0 rest ih =>
    intro db key h
    exact ih _ key (upsert_failed_key_mono db cid k l0 err key h)

/-- Every targeted label has its key present after
`_mark_all_deliveries_failed`. -/
theorem markall_mem_key (cid : Nat) (k err : String) :
    ∀ (labels : List String) (db : List DeliveryRow) (l : String), l ∈ labels →
      (k, l) ∈ (mark_all_deliveries_failed db cid k labels err).map deliveryKey := by
  intro labels
  induction labels with
  | nil => intro db l h; exact absurd h (List.not_mem_nil l)
  | cons l0 rest ih =>
    intro db l h
    rcases List.mem_cons.mp h with h0 | h0
    · subst h0
      exact markall_key_mono cid k err rest _ (k, l)
        (upsert_failed_mem_key db cid k l err)
    · exact ih _ l h0

/-- `_mark_all_deliveries_failed` keeps the key column duplicate-free. -/
theorem markall_key_nodup (cid : Nat) (k err : String) :
    ∀ (labels : List String) (db : List DeliveryRow),
      (db.map deliveryKey).Nodup →
      ((mark_all_deliveries_failed db cid k labels err).map deliveryKey).Nodup := by
  intro labels
  induction labels with
  | nil => intro db h; exact h
  | cons l0 rest ih =>
    intro db h
    exact ih _ (upsert_failed_key_nodup db cid k l0 err h)

/-- When every targeted key already exists `_mark_all_deliveries_failed`
leaves the key column unchanged: it creates no rows. -/
theorem markall_keys_frozen (cid : Nat) (k err : String) :
    ∀ (labels : List String) (db : List DeliveryRow),
      (∀ l ∈ labels, (k, l) ∈ db.map deliveryKey) →
      (mark_all_deliveries_failed db cid k labels err).map deliveryKey =
        db.map deliveryKey := by
  intro labels
  induction labels with
  | nil => intro db _; rfl
  | cons l0 rest ih =>
    intro db h
    have h0 : (k, l0) ∈ db.map deliveryKey := h l0 (List.mem_cons_self l0 rest)
    have hkeys := upsert_failed_map_key_of_mem db cid k l0 err h0
    have := ih (upsert_failed db cid k l0 err)
      (fun l hl => by rw [hkeys]; exact h l (List.mem_cons_of_mem l0 hl))
    calc (mark_all_deliveries_failed db cid k (l0 :: rest) err).map deliveryKey
        = (mark_all_deliveries_failed (upsert_failed db cid k l0 err) cid k rest err).map
            deliveryKey := rfl
      _ = (upsert_failed db cid k l0 err).map deliveryKey := this
      _ = db.map deliveryKey := hkeys

/-- The key column after `process_content_item` is duplicate-free, every
targeted label is present, and already-present keys persist. -/
theorem process_key_facts (db : List DeliveryRow) (cid : Nat) (k : String)
    (mat : Except String Unit) (labels : List String)
    (outs : String → Except String (List (String × JValue)))
    (hu : (db.map deliveryKey).Nodup) :
    ((process_content_item db cid k mat labels outs).1.map deliveryKey).Nodup
    ∧ (∀ l ∈ labels,
        (k, l) ∈ (process_content_item db cid k mat labels outs).1.map deliveryKey)
    ∧ (∀ key ∈ db.map deliveryKey,
        key ∈ (process_content_item db cid k mat labels outs).1.map deliveryKey) := by
  cases mat with
  | error e =>
    refine ⟨markall_key_nodup cid k _ labels db hu, ?_, ?_⟩
    · intro l hl
      exact markall_mem_key cid k _ labels db l hl
    · intro key hkey
      exact markall_key_mono cid k _ labels db key hkey
  | ok u =>
    refine ⟨deliver_fold_key_nodup cid k outs labels db [] hu, ?_, ?_⟩
    · intro l hl
      exact deliver_fold_mem_key cid k outs labels db [] l hl
    · intro key hkey
      exact deliver_fold_key_mono cid k outs labels db [] key hkey

/-- When every targeted key already exists, `process_content_item` adds no
Delivery rows at all. -/
theorem process_keys_frozen (db : List DeliveryRow) (cid : Nat) (k : String)
    (mat : Except String Unit) (labels : List String)
    (outs : String → Except String (List (String × JValue)))
    (h : ∀ l ∈ labels, (k, l) ∈ db.map deliveryKey) :
    (process_content_item db cid k mat labels outs).1.map deliveryKey =
      db.map deliveryKey := by
  cases mat with
  | error e => exact markall_keys_frozen cid k _ labels db h
  | ok u => exact deliver_fold_keys_frozen cid k outs labels db [] h

/-! ## Claim C1 -/

/-- C1: the key column stays duplicate-free (at most one Delivery per
(source key, account label)), re-invoking `process_content_item` on the
same ContentItem adds no Delivery rows, and the second invocation makes
no publish attempt for any label whose Delivery is already sent. -/
theorem delivery_exactly_once (db : List DeliveryRow) (cid : Nat) (k : String)
    (mat1 mat2 : Except String Unit) (labels : List String)
    (out1 out2 : String → Except String (List (String × JValue)))
    (hu : (db.map deliveryKey).Nodup) :
    ((process_content_item db cid k mat1 labels out1).1.map deliveryKey).Nodup
    ∧ ((process_content_item (process_content_item db cid k mat1 labels out1).1
          cid k mat2 labels out2).1.map deliveryKey).Nodup
    ∧ (process_content_item (process_content_item db cid k mat1 labels out1).1
          cid k mat2 labels out2).1.map deliveryKey
        = (process_content_item db cid k mat1 labels out1).1.map deliveryKey
    ∧ (∀ l d,
        find_delivery (process_content_item db cid k mat1 labels out1).1 k l = some d →
        d.status = DStatus.sent →
        l ∉ (process_content_item (process_content_item db cid k mat1 labels out1).1
              cid k mat2 labels out2).2) := by
  obtain ⟨h1, h2, h3⟩ := process_key_facts db cid k mat1 labels out1 hu
  refine ⟨h1, (process_key_facts _ cid k mat2 labels out2 h1).1,
    process_keys_frozen _ cid k mat2 labels out2 h2, ?_⟩
  intro l d hf hs
  cases mat2 with
  | error e => exact List.not_mem_nil l
  | ok u =>
    exact deliver_fold_no_attempt_sent cid k out2 labels _ [] l d hf hs
      (List.not_mem_nil l)

/-- Publish oracle for the C1 witness: account a succeeds, account b
fails. -/
def c1Out1 : String → Except String (List (String × JValue)) :=
  fun l => if l = "a" then Except.ok [("post_id", JValue.str "p1")]
    else Except.error "boom"

/-- Publish oracle for the C1 witness second run: everything succeeds. -/
def c1Out2 : String → Except String (List (String × JValue)) :=
  fun _ => Except.ok [("post_id", JValue.str "p2")]

/-- Witness for C1: two concrete runs over accounts a and b; the second
run adds no rows, and its attempt log is exactly the previously failed
account b. -/
theorem delivery_exactly_once_witness :
    ((process_content_item (process_content_item [] 1 "msg:-100:5" (Except.ok ())
          ["a", "b"] c1Out1).1 1 "msg:-100:5" (Except.ok ()) ["a", "b"] c1Out2).1.map
        deliveryKey
      = (process_content_item [] 1 "msg:-100:5" (Except.ok ()) ["a", "b"] c1Out1).1.map
          deliveryKey)
    ∧ (process_content_item (process_content_item [] 1 "msg:-100:5" (Except.ok ())
          ["a", "b"] c1Out1).1 1 "msg:-100:5" (Except.ok ()) ["a", "b"] c1Out2).2 = ["b"] := by
  constructor
  · exact (delivery_exactly_once [] 1 "msg:-100:5" (Except.ok ()) (Except.ok ())
      ["a", "b"] c1Out1 c1Out2 (by simp)).2.2.1
  · decide

/-! ## Claim C2 -/

/-- C2 fails on the code: when a re-processing of an already delivered
ContentItem hits a materialization failure, `_mark_all_deliveries_failed`
overwrites the sent Delivery with status failed (tasks.py lines 315-334
set status unconditionally), contradicting the monotone-status invariant. -/
theorem process_overwrites_sent_on_materialize_failure :
    find_delivery
      (process_content_item
        [DeliveryRow.mk 1 "msg:-100:5" "acc" DStatus.sent none (some "post-1")]
        1 "msg:-100:5" (Except.error "boom") ["acc"] (fun _ => Except.error "unused")).1
      "msg:-100:5" "acc"
    = some (DeliveryRow.mk 1 "msg:-100:5" "acc" DStatus.failed
        (some "Telegram download failed: boom") (some "post-1")) := by
  decide

/-! ## Claim C10 -/

/-- C10: when the init response yields no publish id under the
publish_id → video_id → creation_id chain, `finalize_video` returns the
empty dict without calling the provider (the finalize oracle is
universally quantified and unused), the publish succeeds with a null
post id, and recording the result marks the Delivery sent with a null
provider post identifier. -/
theorem no_publish_id_skips_finalize (env : VideoEnv) (mode : String)
    (init_data : List (String × JValue)) (upload_url : String)
    (hinit : env.init mode = Except.ok init_data)
    (hurl : extract_upload_url init_data = some upload_url)
    (hpid : extract_publish_id init_data = none)
    (hup : env.upload upload_url = Except.ok ()) :
    publish_with_mode env mode = Except.ok (PublishResult.mk mode none none)
    ∧ finalize_video env none mode = Except.ok []
    ∧ pick_result_post_id (publish_result_dict (PublishResult.mk mode none none)) = none
    ∧ (∀ (db : List DeliveryRow) (cid : Nat) (k l : String),
        (∀ d, find_delivery db k l = some d → d.status ≠ DStatus.sent) →
        ∃ d, find_delivery (deliver_to_account db cid k l
              (Except.ok (publish_result_dict (PublishResult.mk mode none none)))).1 k l
            = some d ∧ d.status = DStatus.sent ∧ d.tiktok_post_id = none) := by
  refine ⟨?_, rfl, rfl, ?_⟩
  · unfold publish_with_mode
    rw [hinit]; dsimp only
    rw [hurl]; dsimp only
    rw [hup]; dsimp only
    rw [hpid]; rfl
  · intro db cid k l h
    obtain ⟨hfind, -⟩ := deliver_ok_marks_sent db cid k l
      (publish_result_dict (PublishResult.mk mode none none)) h
    exact ⟨_, hfind, rfl, rfl⟩

/-- Oracle for the C10 witness: the init response has an upload URL but
no publish id, and the finalize call would fail if it were ever made. -/
def c10Env : VideoEnv :=
  VideoEnv.mk
    (fun _ => Except.ok [("upload_url", JValue.str "https://example.test/up2")])
    (fun _ => Except.ok ())
    (fun _ _ => Except.error (TTError.mk "finalize must not be reached" none []))

/-- Witness for C10: with the concrete oracle the publish succeeds with a
null post id even though every finalize call would error. -/
theorem no_publish_id_skips_finalize_witness :
    publish_with_mode c10Env "draft" = Except.ok (PublishResult.mk "draft" none none) :=
  (no_publish_id_skips_finalize c10Env "draft"
    [("upload_url", JValue.str "https://example.test/up2")] "https://example.test/up2"
    rfl (by rw [extract_upload_url.eq_def]; rfl) rfl rfl).1

/-! ## app/tiktok/oauth.py: ensure_valid_access_token -/

/-- Embedding of the TikTokAccount ORM row fields that the token
lifecycle reads and writes; the Python Optional token columns are
modelled as strings with the empty string as the falsy value. -/
structure TikTokAccount where
  account_label : String
  access_token : String
  refresh_token : String
  expires_at : Option Int
  needs_reauth : Bool
deriving DecidableEq

/-- The fields of the provider refresh response that
`ensure_valid_access_token` reads. -/
structure RefreshTokenData where
  access_token : Option String
  refresh_token : Option String
  expires_in : Option Int
deriving DecidableEq

/-- Embedding of `_safe_int` on an already-decoded optional integer. -/
def safe_int (v : Option Int) (default : Int) : Int :=
  v.getD default

/-- Outcome of `ensure_valid_access_token`: the returned token plus the
persisted account state, or the raised error plus the persisted account
state. -/
inductive EnsureResult where
  | ok : String → TikTokAccount → EnsureResult
  | err : String → TikTokAccount → EnsureResult
deriving DecidableEq

/-- Embedding of `ensure_valid_access_token` (app/tiktok/oauth.py):
reject on needs_reauth or missing access token; return the current token
when the expiry is more than 90 seconds in the future; else refresh
(outcome given by the oracle argument), on provider error set
needs_reauth and fail, on success store the new credentials with expiry
now + max(60, expires_in) and return the new token. -/
def ensure_valid_access_token (account : TikTokAccount) (now : Int)
    (refresh_response : Except TTError RefreshTokenData) : EnsureResult :=
  if account.needs_reauth then EnsureResult.err "requires re-auth" account
  else if account.access_token = "" then EnsureResult.err "has no access_token" account
  else if (match account.expires_at with
      | some e => decide (now + 90 < e)
      | none => false) = true then
    EnsureResult.ok account.access_token account
  else if account.refresh_token = "" then
    EnsureResult.err "has no refresh_token" { account with needs_reauth := true }
  else
    match refresh_response with
    | Except.error _ => EnsureResult.err "refresh failed" { account with needs_reauth := true }
    | Except.ok d =>
        EnsureResult.ok
          (match d.access_token with
            | some s => if s = "" then account.access_token else s
            | none => account.access_token)
          { account with
            access_token :=
              match d.access_token with
              | some s => if s = "" then account.access_token else s
              | none => account.access_token,
            refresh_token :=
              match d.refresh_token with
              | some s => if s = "" then account.refresh_token else s
              | none => account.refresh_token,
            expires_at := some (now + max 60 (safe_int d.expires_in 3600)),
            needs_reauth := false }

/-! ## Claim C3 -/

/-- An account whose credential expired in the past. -/
def c3ExpiredAccount : TikTokAccount :=
  TikTokAccount.mk "acc" "tok" "ref" (some 100) false

/-- A provider refresh response granting only 60 seconds. -/
def c3RefreshShort : RefreshTokenData :=
  RefreshTokenData.mk (some "tok2") none (some 60)

/-- C3 fails on the code: with the provider answering expires_in=60 the
refresh path returns the new credential with expiry now + 60, which is
not more than 90 seconds after now (oauth.py line 139 applies only the
max(60, expires_in) floor and never re-checks the 90-second skew). -/
theorem ensure_token_skew_counterexample :
    ensure_valid_access_token c3ExpiredAccount 1000 (Except.ok c3RefreshShort)
      = EnsureResult.ok "tok2" (TikTokAccount.mk "acc" "tok2" "ref" (some 1060) false)
    ∧ ¬((1000 : Int) + 90 < 1060) := by
  constructor
  · decide
  · decide

/-- C3 amended: a credential returned without refreshing carries an
expiry more than 90 seconds after now; a credential returned after a
successful refresh carries expiry now + max(60, expires_in), with no
90-second guarantee. -/
theorem ensure_token_expiry_characterization (account : TikTokAccount) (now : Int)
    (resp : Except TTError RefreshTokenData) (tok : String) (acc2 : TikTokAccount)
    (h : ensure_valid_access_token account now resp = EnsureResult.ok tok acc2) :
    (acc2 = account ∧ tok = account.access_token ∧
      ∃ e, account.expires_at = some e ∧ now + 90 < e)
    ∨ (∃ d, resp = Except.ok d ∧
        acc2.expires_at = some (now + max 60 (safe_int d.expires_in 3600)) ∧
        tok = acc2.access_token) := by
  unfold ensure_valid_access_token at h
  split at h
  · simp at h
  · split at h
    · simp at h
    · split at h
      · rename_i hfresh
        left
        injection h with h1 h2
        refine ⟨h2.symm, h1.symm, ?_⟩
        cases hexp : account.expires_at with
        | none => rw [hexp] at hfresh; simp at hfresh
        | some e =>
          rw [hexp] at hfresh
          simp only [decide_eq_true_eq] at hfresh
          exact ⟨e, rfl, hfresh⟩
      · split at h
        · simp at h
        · cases hresp : resp with
          | error e => rw [hresp] at h; simp at h
          | ok d =>
            rw [hresp] at h
            dsimp only at h
            injection h with h1 h2
            right
            refine ⟨d, rfl, ?_, ?_⟩
            · rw [← h2]
            · rw [← h1, ← h2]

/-- An account whose credential is still fresh. -/
def c3FreshAccount : TikTokAccount :=
  TikTokAccount.mk "acc" "tok" "ref" (some 10000) false

/-- Witness for the amended C3: the fast path at a concrete account. -/
theorem ensure_token_expiry_characterization_witness :
    ∃ tok acc2,
      ensure_valid_access_token c3FreshAccount 0
          (Except.ok (RefreshTokenData.mk none none none)) = EnsureResult.ok tok acc2
      ∧ ((acc2 = c3FreshAccount ∧ tok = c3FreshAccount.access_token ∧
            ∃ e, c3FreshAccount.expires_at = some e ∧ (0 : Int) + 90 < e)
        ∨ (∃ d, (Except.ok (RefreshTokenData.mk none none none) :
              Except TTError RefreshTokenData) = Except.ok d ∧
            acc2.expires_at = some (0 + max 60 (safe_int d.expires_in 3600)) ∧
            tok = acc2.access_token)) :=
  ⟨"tok", c3FreshAccount, by decide,
    ensure_token_expiry_characterization c3FreshAccount 0
      (Except.ok (RefreshTokenData.mk none none none)) "tok" c3FreshAccount (by decide)⟩

/-! ## app/telegram/aggregator.py -/

/-- Embedding of the `ParsedMessage` dataclass (app/telegram/parser.py). -/
structure ParsedMessage where
  source_chat_id : Int
  message_id : Int
  media_group_id : Option String
  content_type : String
  telegram_file_id : String
  caption : String
  text : String
  created_at : Int
deriving DecidableEq

/-- Embedding of the `MediaGroupBuffer` ORM row (app/models.py), with the
unique constraint on (media_group_id, source_message_id,
telegram_file_id). -/
structure MediaGroupBuffer where
  media_group_id : String
  source_chat_id : Int
  source_message_id : Int
  content_type : String
  telegram_file_id : String
  caption : String
  source_text : String
  created_at : Int
deriving DecidableEq

/-- The database error the `db.commit()` of `MediaGroupAggregator.add`
raises when the unique constraint fires. -/
inductive DBError where
  | integrityError : DBError
deriving DecidableEq

/-- Embedding of `MediaGroupAggregator.add`: return without insert when
the parsed message has a falsy album id; otherwise insert one row, and
the commit raises IntegrityError when the (album id, message id, file
id) triple already exists — the method has no handler for it. -/
def aggregator_add (buf : List MediaGroupBuffer) (p : ParsedMessage) :
    Except DBError (List MediaGroupBuffer) :=
  match p.media_group_id with
  | none => Except.ok buf
  | some g =>
    if g = "" then Except.ok buf
    else if buf.any (fun r => r.media_group_id == g &&
        r.source_message_id == p.message_id &&
        r.telegram_file_id == p.telegram_file_id) then
      Except.error DBError.integrityError
    else
      Except.ok (buf ++ [MediaGroupBuffer.mk g p.source_chat_id p.message_id
        p.content_type p.telegram_file_id p.caption p.text p.created_at])

/-- Embedding of the `MediaGroupBundle` dataclass. -/
structure MediaGroupBundle where
  media_group_id : String
  source_chat_id : Int
  source_message_ids : List Int
  file_ids : List String
  caption : String
  source_text : String
  created_at : Int
deriving DecidableEq

/-- The rows of one album, in buffer (insertion) order. -/
def group_rows (buf : List MediaGroupBuffer) (g : String) : List MediaGroupBuffer :=
  buf.filter (fun r => r.media_group_id == g)

/-- Insert a row into a message-id-sorted list, before the first row with
a message id not smaller than its own (stable insertion). -/
def insert_by_msg (r : MediaGroupBuffer) : List MediaGroupBuffer → List MediaGroupBuffer
  | [] => [r]
  | x :: rest =>
    if r.source_message_id ≤ x.source_message_id then r :: x :: rest
    else x :: insert_by_msg r rest

/-- The `ORDER BY source_message_id ASC` read of the album rows. -/
def sort_by_msg : List MediaGroupBuffer → List MediaGroupBuffer
  | [] => []
  | x :: rest => insert_by_msg x (sort_by_msg rest)

/-- Minimum of a nonempty list of instants, as `min(...)` in Python. -/
def minList (x : Int) (xs : List Int) : Int :=
  xs.foldl min x

/-- The Bundle built from one album id, when the album has rows: chat id
from the first row in message-id order, ordered message ids and file
handles, first caption and source text that are non-blank after
stripping, and the minimum created instant. -/
def make_bundle (buf : List MediaGroupBuffer) (g : String) : Option MediaGroupBundle :=
  match sort_by_msg (group_rows buf g) with
  | [] => none
  | r :: rest =>
    some (MediaGroupBundle.mk g r.source_chat_id
      ((r :: rest).map (fun x => x.source_message_id))
      ((r :: rest).map (fun x => x.telegram_file_id))
      ((((r :: rest).map (fun x => x.caption)).find?
          (fun c => !(pyStrip c == ""))).getD "")
      ((((r :: rest).map (fun x => x.source_text)).find?
          (fun c => !(pyStrip c == ""))).getD "")
      (minList r.created_at (rest.map (fun x => x.created_at))))

/-- The album ids whose earliest buffered row is at or past the
threshold (`HAVING min(created_at) <= threshold`). -/
def due_group_ids (buf : List MediaGroupBuffer) (threshold : Int) : List String :=
  ((buf.map (fun r => r.media_group_id)).dedup).filter (fun g =>
    match ((group_rows buf g).map (fun r => r.created_at)).min? with
    | some m => decide (m ≤ threshold)
    | none => false)

/-- Embedding of `MediaGroupAggregator.flush_due_groups`: one bundle per
due album id (albums with rows), then deletion of every row of the due
albums. The effective flush window is `max 1 flush_seconds` because the
constructor floors the configured value at one second. -/
def flush_due_groups (buf : List MediaGroupBuffer) (flush_seconds now : Int) :
    List MediaGroupBundle × List MediaGroupBuffer :=
  let threshold := now - max 1 flush_seconds
  let due := due_group_ids buf threshold
  (due.filterMap (make_bundle buf),
    buf.filter (fun r => !(due.contains r.media_group_id)))

/-- Stable insertion permutes to a cons. -/
theorem insert_by_msg_perm (r : MediaGroupBuffer) (l : List MediaGroupBuffer) :
    (insert_by_msg r l).Perm (r :: l) := by
  induction l with
  | nil => exact List.Perm.refl _
  | cons x rest ih =>
    unfold insert_by_msg
    split
    · exact List.Perm.refl _
    · exact List.Perm.trans (List.Perm.cons x ih) (List.Perm.swap r x rest)

/-- The message-id sort is a permutation of its input. -/
theorem sort_by_msg_perm (l : List MediaGroupBuffer) : (sort_by_msg l).Perm l := by
  induction l with
  | nil => exact List.Perm.refl _
  | cons x rest ih =>
    exact List.Perm.trans (insert_by_msg_perm x (sort_by_msg rest)) (ih.cons x)

/-- Stable insertion preserves message-id sortedness. -/
theorem insert_by_msg_pairwise (r : MediaGroupBuffer) (l : List MediaGroupBuffer)
    (h : l.Pairwise (fun a b => a.source_message_id ≤ b.source_message_id)) :
    (insert_by_msg r l).Pairwise
      (fun a b => a.source_message_id ≤ b.source_message_id) := by
  induction l with
  | nil => simp [insert_by_msg]
  | cons x rest ih =>
    rcases List.pairwise_cons.mp h with ⟨hx, hrest⟩
    unfold insert_by_msg
    split
    · rename_i hle
      apply List.pairwise_cons.mpr
      refine ⟨?_, h⟩
      intro y hy
      rcases List.mem_cons.mp hy with hyx | hyr
      · rw [hyx]; exact hle
      · exact le_trans hle (hx y hyr)
    · rename_i hgt
      apply List.pairwise_cons.mpr
      refine ⟨?_, ih hrest⟩
      intro y hy
      have hy2 := (insert_by_msg_perm r rest).mem_iff.mp hy
      rcases List.mem_cons.mp hy2 with hyr | hyr
      · rw [hyr]; exact le_of_lt (lt_of_not_le hgt)
      · exact hx y hyr

/-- The message-id sort is sorted. -/
theorem sort_by_msg_pairwise (l : List MediaGroupBuffer) :
    (sort_by_msg l).Pairwise
      (fun a b => a.source_message_id ≤ b.source_message_id) := by
  induction l with
  | nil => exact List.Pairwise.nil
  | cons x rest ih => exact insert_by_msg_pairwise x (sort_by_msg rest) ih

/-- Folding `min` over a cons. -/
theorem minList_cons (x y : Int) (ys : List Int) :
    minList x (y :: ys) = minList (min x y) ys := rfl

/-- The fold of `min` is bounded by its seed. -/
theorem minList_le_head (x : Int) (xs : List Int) : minList x xs ≤ x := by
  induction xs generalizing x with
  | nil => exact le_refl x
  | cons y ys ih =>
    rw [minList_cons]
    exact le_trans (ih (min x y)) (min_le_left x y)

/-- The fold of `min` returns an element of the list (seed included). -/
theorem minList_mem (x : Int) (xs : List Int) : minList x xs ∈ x :: xs := by
  induction xs generalizing x with
  | nil => exact List.mem_singleton.mpr rfl
  | cons y ys ih =>
    rw [minList_cons]
    rcases List.mem_cons.mp (ih (min x y)) with h | h
    · rcases min_choice x y with hc | hc
      · rw [h, hc]; exact List.mem_cons_self _ _
      · rw [h, hc]; exact List.mem_cons_of_mem _ (List.mem_cons_self _ _)
    · exact List.mem_cons_of_mem _ (List.mem_cons_of_mem _ h)

/-- The fold of `min` is a lower bound of the list (seed included). -/
theorem minList_le (x : Int) (xs : List Int) : ∀ z ∈ x :: xs, minList x xs ≤ z := by
  induction xs generalizing x with
  | nil =>
    intro z hz
    have hzx := List.mem_singleton.mp hz
    rw [hzx]
    exact le_refl x
  | cons y ys ih =>
    intro z hz
    rw [minList_cons]
    rcases List.mem_cons.mp hz with h | h
    · rw [h]
      exact le_trans (minList_le_head (min x y) ys) (min_le_left x y)
    · rcases List.mem_cons.mp h with h2 | h2
      · rw [h2]
        exact le_trans (minList_le_head (min x y) ys) (min_le_right x y)
      · exact ih (min x y) z (List.mem_cons_of_mem _ h2)

/-- With duplicate-free keys and a key-respecting builder, the filterMap
contains exactly one element per present key. -/
theorem filterMap_bundle_unique (f : String → Option MediaGroupBundle)
    (hf : ∀ g b, f g = some b → b.media_group_id = g) :
    ∀ (ds : List String), ds.Nodup → ∀ g b, g ∈ ds → f g = some b →
      (ds.filterMap f).filter (fun x => x.media_group_id == g) = [b] := by
  intro ds
  induction ds with
  | nil => intro _ g b hg _; exact absurd hg (List.not_mem_nil g)
  | cons d rest ih =>
    intro hnd g b hg hfb
    rcases List.nodup_cons.mp hnd with ⟨hdnot, hndrest⟩
    rcases List.mem_cons.mp hg with hgd | hgrest
    · subst hgd
      rw [List.filterMap_cons_some hfb]
      have hbg : (b.media_group_id == g) = true := by
        rw [hf g b hfb]; exact beq_self_eq_true g
      rw [List.filter_cons, if_pos hbg]
      have hnil : (List.filterMap f rest).filter (fun x => x.media_group_id == g) = [] := by
        apply List.filter_eq_nil_iff.mpr
        intro x hx
        rcases List.mem_filterMap.mp hx with ⟨a, ha, hfa⟩
        have hxa := hf a x hfa
        intro hpred
        apply hdnot
        have : x.media_group_id = g := by simpa using hpred
        rw [← hxa, this] at ha
        exact ha
      rw [hnil]
    · have hdg : d ≠ g := fun hc => hdnot (hc ▸ hgrest)
      cases hfd : f d with
      | none =>
        rw [List.filterMap_cons_none hfd]
        exact ih hndrest g b hgrest hfb
      | some bd =>
        rw [List.filterMap_cons_some hfd]
        have hbd : ¬(bd.media_group_id == g) = true := by
          rw [hf d bd hfd]
          simp [hdg]
        rw [List.filter_cons, if_neg hbd]
        exact ih hndrest g b hgrest hfb

/-- A bundle built for an album id carries that album id. -/
theorem make_bundle_media_group_id (buf : List MediaGroupBuffer) (g : String)
    (b : MediaGroupBundle) (h : make_bundle buf g = some b) : b.media_group_id = g := by
  unfold make_bundle at h
  cases hs : sort_by_msg (group_rows buf g) with
  | nil => rw [hs] at h; simp at h
  | cons r rest =>
    rw [hs] at h
    dsimp only at h
    injection h with h2
    rw [← h2]

/-- A due album id has at least one buffered row. -/
theorem due_group_rows_ne_nil (buf : List MediaGroupBuffer) (threshold : Int)
    (g : String) (h : g ∈ due_group_ids buf threshold) : group_rows buf g ≠ [] := by
  have h2 := (List.mem_filter.mp h).2
  intro hnil
  rw [hnil] at h2
  simp at h2

/-- A due album id has its earliest row at or before the threshold. -/
theorem due_min_le (buf : List MediaGroupBuffer) (threshold : Int) (g : String)
    (h : g ∈ due_group_ids buf threshold) :
    ∃ m, ((group_rows buf g).map (fun r => r.created_at)).min? = some m ∧
      m ≤ threshold := by
  have h2 := (List.mem_filter.mp h).2
  cases hm : ((group_rows buf g).map (fun r => r.created_at)).min? with
  | none => rw [hm] at h2; simp at h2
  | some m =>
    rw [hm] at h2
    simp only [decide_eq_true_eq] at h2
    exact ⟨m, rfl, h2⟩

/-- The due album id list is duplicate-free. -/
theorem due_group_ids_nodup (buf : List MediaGroupBuffer) (threshold : Int) :
    (due_group_ids buf threshold).Nodup :=
  (List.nodup_dedup _).filter _

/-! ## Claim C4 -/

/-- C4 amended: every due album id yields exactly one Bundle; its
(message id, file handle) pairs are a permutation of all buffered rows of
the album listed with ascending message ids; its caption is the first
caption that is non-blank after stripping in that order (the claim said
first non-empty); its chat id comes from the first row in that order; its
created instant is the minimum over the rows; the rows of flushed albums
are deleted and all other rows are kept. -/
theorem flush_bundle_per_album (buf : List MediaGroupBuffer) (flush_seconds now : Int)
    (g : String) (hdue : g ∈ due_group_ids buf (now - max 1 flush_seconds)) :
    ∃ b, ((flush_due_groups buf flush_seconds now).1.filter
        (fun x => x.media_group_id == g)) = [b]
      ∧ b.source_message_ids.Pairwise (fun a c => a ≤ c)
      ∧ (b.source_message_ids.zip b.file_ids).Perm
          ((group_rows buf g).map (fun r => (r.source_message_id, r.telegram_file_id)))
      ∧ b.caption = ((((sort_by_msg (group_rows buf g)).map (fun r => r.caption)).find?
          (fun c => !(pyStrip c == ""))).getD "")
      ∧ (∃ r0 rs, sort_by_msg (group_rows buf g) = r0 :: rs ∧
          b.source_chat_id = r0.source_chat_id)
      ∧ b.created_at ∈ (group_rows buf g).map (fun r => r.created_at)
      ∧ (∀ c ∈ (group_rows buf g).map (fun r => r.created_at), b.created_at ≤ c)
      ∧ (∀ rr ∈ (flush_due_groups buf flush_seconds now).2, rr.media_group_id ≠ g)
      ∧ (∀ rr ∈ buf,
          rr.media_group_id ∉ due_group_ids buf (now - max 1 flush_seconds) →
          rr ∈ (flush_due_groups buf flush_seconds now).2) := by
  have hnodup := due_group_ids_nodup buf (now - max 1 flush_seconds)
  have hrows : group_rows buf g ≠ [] :=
    due_group_rows_ne_nil buf (now - max 1 flush_seconds) g hdue
  have hsortne : sort_by_msg (group_rows buf g) ≠ [] := by
    intro hnil
    have hlen := (sort_by_msg_perm (group_rows buf g)).length_eq
    rw [hnil] at hlen
    exact hrows (List.eq_nil_of_length_eq_zero hlen.symm)
  obtain ⟨r, rest, hsort⟩ : ∃ r rest, sort_by_msg (group_rows buf g) = r :: rest := by
    cases hs : sort_by_msg (group_rows buf g) with
    | nil => exact absurd hs hsortne
    | cons a l => exact ⟨a, l, rfl⟩
  have hmk : make_bundle buf g = some (MediaGroupBundle.mk g r.source_chat_id
      ((r :: rest).map (fun x => x.source_message_id))
      ((r :: rest).map (fun x => x.telegram_file_id))
      ((((r :: rest).map (fun x => x.caption)).find?
          (fun c => !(pyStrip c == ""))).getD "")
      ((((r :: rest).map (fun x => x.source_text)).find?
          (fun c => !(pyStrip c == ""))).getD "")
      (minList r.created_at (rest.map (fun x => x.created_at)))) := by
    unfold make_bundle
    rw [hsort]
  refine ⟨MediaGroupBundle.mk g r.source_chat_id
      ((r :: rest).map (fun x => x.source_message_id))
      ((r :: rest).map (fun x => x.telegram_file_id))
      ((((r :: rest).map (fun x => x.caption)).find?
          (fun c => !(pyStrip c == ""))).getD "")
      ((((r :: rest).map (fun x => x.source_text)).find?
          (fun c => !(pyStrip c == ""))).getD "")
      (minList r.created_at (rest.map (fun x => x.created_at))),
    ?_, ?_, ?_, ?_, ?_, ?_, ?_, ?_, ?_⟩
  · exact filterMap_bundle_unique (make_bundle buf) (make_bundle_media_group_id buf)
      (due_group_ids buf (now - max 1 flush_seconds)) hnodup g _ hdue hmk
  · show ((r :: rest).map (fun x => x.source_message_id)).Pairwise (fun a c => a ≤ c)
    have hpw := sort_by_msg_pairwise (group_rows buf g)
    rw [hsort] at hpw
    exact List.pairwise_map.mpr (hpw.imp (fun h => h))
  · show (((r :: rest).map (fun x => x.source_message_id)).zip
        ((r :: rest).map (fun x => x.telegram_file_id))).Perm
      ((group_rows buf g).map (fun rr => (rr.source_message_id, rr.telegram_file_id)))
    rw [List.zip_map']
    rw [← hsort]
    exact (sort_by_msg_perm (group_rows buf g)).map _
  · show ((((r :: rest).map (fun x => x.caption)).find?
        (fun c => !(pyStrip c == ""))).getD "")
      = ((((sort_by_msg (group_rows buf g)).map (fun rr => rr.caption)).find?
        (fun c => !(pyStrip c == ""))).getD "")
    rw [hsort]
  · exact ⟨r, rest, hsort, rfl⟩
  · show minList r.created_at (rest.map (fun x => x.created_at)) ∈
      (group_rows buf g).map (fun rr => rr.created_at)
    have hmem := minList_mem r.created_at (rest.map (fun x => x.created_at))
    have hmem2 : minList r.created_at (rest.map (fun x => x.created_at)) ∈
        (sort_by_msg (group_rows buf g)).map (fun rr => rr.created_at) := by
      rw [hsort]
      exact hmem
    exact ((sort_by_msg_perm (group_rows buf g)).map
      (fun rr => rr.created_at)).mem_iff.mp hmem2
  · intro c hc
    have hc2 : c ∈ (sort_by_msg (group_rows buf g)).map (fun rr => rr.created_at) :=
      ((sort_by_msg_perm (group_rows buf g)).map (fun rr => rr.created_at)).mem_iff.mpr hc
    rw [hsort, List.map_cons] at hc2
    exact minList_le r.created_at (rest.map (fun x => x.created_at)) c hc2
  · intro rr hrr hgg
    have hpred := (List.mem_filter.mp hrr).2
    rw [Bool.not_eq_true'] at hpred
    have hcontains : (due_group_ids buf (now - max 1 flush_seconds)).contains
        rr.media_group_id = true := by
      rw [hgg]
      exact List.elem_eq_true_of_mem hdue
    rw [hcontains] at hpred
    simp at hpred
  · intro rr hrr hnot
    apply List.mem_filter.mpr
    refine ⟨hrr, ?_⟩
    rw [Bool.not_eq_true']
    cases hc : (due_group_ids buf (now - max 1 flush_seconds)).contains
        rr.media_group_id
    · rfl
    · exact absurd (List.elem_iff.mp hc) hnot

/-- A two-row album whose first caption is whitespace only. -/
def c4Buf : List MediaGroupBuffer :=
  [MediaGroupBuffer.mk "g" (-1) 1 "photo" "f1" " " "" 0,
   MediaGroupBuffer.mk "g" (-1) 2 "photo" "f2" "x" "" 0]

/-- C4 as stated fails on the code: with captions [" ", "x"] the emitted
Bundle carries "x" (the code skips captions that are blank after
stripping), while the first non-empty caption in message-id order is the
whitespace string " ". -/
theorem flush_caption_counterexample :
    ((flush_due_groups c4Buf 3 100).1.map (fun b => b.caption)) = ["x"]
    ∧ ((((sort_by_msg (group_rows c4Buf "g")).map (fun r => r.caption)).find?
        (fun c => !(c == ""))).getD "") = " " := by
  constructor
  · decide
  · decide

/-- Witness for the amended C4 at the concrete two-row album. -/
theorem flush_bundle_per_album_witness :
    ∃ b, ((flush_due_groups c4Buf 3 100).1.filter
        (fun x => x.media_group_id == "g")) = [b]
      ∧ b.source_message_ids.Pairwise (fun a c => a ≤ c)
      ∧ (b.source_message_ids.zip b.file_ids).Perm
          ((group_rows c4Buf "g").map (fun r => (r.source_message_id, r.telegram_file_id)))
      ∧ b.caption = ((((sort_by_msg (group_rows c4Buf "g")).map (fun r => r.caption)).find?
          (fun c => !(pyStrip c == ""))).getD "")
      ∧ (∃ r0 rs, sort_by_msg (group_rows c4Buf "g") = r0 :: rs ∧
          b.source_chat_id = r0.source_chat_id)
      ∧ b.created_at ∈ (group_rows c4Buf "g").map (fun r => r.created_at)
      ∧ (∀ c ∈ (group_rows c4Buf "g").map (fun r => r.created_at), b.created_at ≤ c)
      ∧ (∀ rr ∈ (flush_due_groups c4Buf 3 100).2, rr.media_group_id ≠ "g")
      ∧ (∀ rr ∈ c4Buf,
          rr.media_group_id ∉ due_group_ids c4Buf (100 - max 1 3) →
          rr ∈ (flush_due_groups c4Buf 3 100).2) :=
  flush_bundle_per_album c4Buf 3 100 "g" (by decide)

/-! ## Claim C5 -/

/-- C5: every Bundle emitted by `flush_due_groups` belongs to an album
whose minimum created instant plus the effective flush window (the
configured value floored at one second) is at most now. -/
theorem flush_album_quiescence (buf : List MediaGroupBuffer) (flush_seconds now : Int)
    (b : MediaGroupBundle) (hb : b ∈ (flush_due_groups buf flush_seconds now).1) :
    ∃ m, ((group_rows buf b.media_group_id).map (fun r => r.created_at)).min? = some m
      ∧ m + max 1 flush_seconds ≤ now := by
  have hb2 : b ∈ (due_group_ids buf (now - max 1 flush_seconds)).filterMap
      (make_bundle buf) := hb
  rcases List.mem_filterMap.mp hb2 with ⟨g, hgdue, hmk⟩
  have hgid := make_bundle_media_group_id buf g b hmk
  rw [hgid]
  rcases due_min_le buf (now - max 1 flush_seconds) g hgdue with ⟨m, hm, hle⟩
  refine ⟨m, hm, ?_⟩
  linarith

/-- Witness for C5 at the concrete two-row album. -/
theorem flush_album_quiescence_witness :
    ∃ m, ((group_rows c4Buf
          (MediaGroupBundle.mk "g" (-1) [1, 2] ["f1", "f2"] "x" "" 0).media_group_id).map
        (fun r => r.created_at)).min? = some m
      ∧ m + max 1 3 ≤ 100 :=
  flush_album_quiescence c4Buf 3 100
    (MediaGroupBundle.mk "g" (-1) [1, 2] ["f1", "f2"] "x" "" 0) (by decide)

/-! ## Claim C6 -/

/-- A parsed album member. -/
def c6Parsed : ParsedMessage :=
  ParsedMessage.mk (-1) 5 (some "g6") "photo" "f" "" "" 50

/-- The buffer row the first `add` of the member inserts. -/
def c6Row : MediaGroupBuffer :=
  MediaGroupBuffer.mk "g6" (-1) 5 "photo" "f" "" "" 50

/-- C6 as stated fails on the code: a second `add` of the same member is
not absorbed — `MediaGroupAggregator.add` has no IntegrityError handler,
so the commit raises on the (album id, message id, file id) unique
constraint. -/
theorem aggregator_add_duplicate_raises :
    aggregator_add [] c6Parsed = Except.ok [c6Row]
    ∧ aggregator_add [c6Row] c6Parsed = Except.error DBError.integrityError := by
  constructor
  · rfl
  · rfl

/-- C6 amended: after a successful `add` of a member, adding the same
member again raises IntegrityError (and, the commit having rolled back,
inserts no second row). -/
theorem aggregator_add_duplicate_integrity_error (buf : List MediaGroupBuffer)
    (p : ParsedMessage) (g : String) (buf1 : List MediaGroupBuffer)
    (hg : p.media_group_id = some g) (hge : ¬g = "")
    (h : aggregator_add buf p = Except.ok buf1) :
    aggregator_add buf1 p = Except.error DBError.integrityError := by
  unfold aggregator_add at h ⊢
  rw [hg] at h ⊢
  dsimp only at h ⊢
  rw [if_neg hge] at h ⊢
  by_cases hany : (buf.any fun r => r.media_group_id == g &&
      r.source_message_id == p.message_id &&
      r.telegram_file_id == p.telegram_file_id) = true
  · rw [if_pos hany] at h
    exact absurd h (by simp)
  · rw [if_neg hany] at h
    have hbuf1 : buf1 = buf ++ [MediaGroupBuffer.mk g p.source_chat_id p.message_id
        p.content_type p.telegram_file_id p.caption p.text p.created_at] := by
      injection h with h2
      exact h2.symm
    have hany2 : (buf1.any fun r => r.media_group_id == g &&
        r.source_message_id == p.message_id &&
        r.telegram_file_id == p.telegram_file_id) = true := by
      rw [hbuf1]
      apply List.any_eq_true.mpr
      refine ⟨MediaGroupBuffer.mk g p.source_chat_id p.message_id p.content_type
        p.telegram_file_id p.caption p.text p.created_at,
        List.mem_append_right _ (List.mem_singleton.mpr rfl), ?_⟩
      simp
    rw [if_pos hany2]

/-- Witness for the amended C6: the duplicate insert of the concrete
member raises IntegrityError. -/
theorem aggregator_add_duplicate_integrity_error_witness :
    aggregator_add [c6Row] c6Parsed = Except.error DBError.integrityError :=
  aggregator_add_duplicate_integrity_error [] c6Parsed "g6" [c6Row] rfl
    (by decide) rfl

/-! ## app/config.py and _resolve_target_accounts (app/queue/tasks.py) -/

/-- Embedding of `Settings.chat_account_mapping` on the decoded JSON
object (integer keys and list-of-string values, as the parser keeps only
such entries): strip each label, drop blank labels, and drop entries
whose cleaned label list is empty. -/
def chat_account_mapping (payload : List (Int × List String)) :
    List (Int × List String) :=
  payload.filterMap (fun kv =>
    let labels := (kv.2.map pyStrip).filter (fun s => !(s == ""))
    if labels.isEmpty then none else some (kv.1, labels))

/-- Model of Python `dict.get` on the parsed mapping. -/
def dict_get (mapping : List (Int × List String)) (c : Int) :
    Option (List String) :=
  (mapping.find? (fun kv => kv.1 == c)).map (fun kv => kv.2)

/-- Insertion into a label-sorted account list. -/
def insert_by_label (a : TikTokAccount) : List TikTokAccount → List TikTokAccount
  | [] => [a]
  | x :: rest =>
    if a.account_label ≤ x.account_label then a :: x :: rest
    else x :: insert_by_label a rest

/-- The `ORDER BY account_label ASC` read of the accounts table. -/
def sort_by_label : List TikTokAccount → List TikTokAccount
  | [] => []
  | x :: rest => insert_by_label x (sort_by_label rest)

/-- Embedding of `_resolve_target_accounts`: look the chat up in the
parsed mapping; with a truthy label list restrict to accounts whose label
is in it, otherwise take all accounts; order by label ascending. -/
def resolve_target_accounts (mapping : List (Int × List String))
    (accounts : List TikTokAccount) (source_chat_id : Int) : List TikTokAccount :=
  let labels := (dict_get mapping source_chat_id).getD []
  if labels.isEmpty then sort_by_label accounts
  else (sort_by_label accounts).filter (fun a => labels.contains a.account_label)

/-- Label-sorted insertion permutes to a cons. -/
theorem insert_by_label_perm (a : TikTokAccount) (l : List TikTokAccount) :
    (insert_by_label a l).Perm (a :: l) := by
  induction l with
  | nil => exact List.Perm.refl _
  | cons x rest ih =>
    unfold insert_by_label
    split
    · exact List.Perm.refl _
    · exact List.Perm.trans (List.Perm.cons x ih) (List.Perm.swap a x rest)

/-- The label sort is a permutation of its input. -/
theorem sort_by_label_perm (l : List TikTokAccount) : (sort_by_label l).Perm l := by
  induction l with
  | nil => exact List.Perm.refl _
  | cons x rest ih =>
    exact List.Perm.trans (insert_by_label_perm x (sort_by_label rest)) (ih.cons x)

/-- Label-sorted insertion preserves sortedness. -/
theorem insert_by_label_pairwise (a : TikTokAccount) (l : List TikTokAccount)
    (h : l.Pairwise (fun x y => x.account_label ≤ y.account_label)) :
    (insert_by_label a l).Pairwise (fun x y => x.account_label ≤ y.account_label) := by
  induction l with
  | nil => simp [insert_by_label]
  | cons x rest ih =>
    rcases List.pairwise_cons.mp h with ⟨hx, hrest⟩
    unfold insert_by_label
    split
    · rename_i hle
      apply List.pairwise_cons.mpr
      refine ⟨?_, h⟩
      intro y hy
      rcases List.mem_cons.mp hy with hyx | hyr
      · rw [hyx]; exact hle
      · exact le_trans hle (hx y hyr)
    · rename_i hgt
      apply List.pairwise_cons.mpr
      refine ⟨?_, ih hrest⟩
      intro y hy
      have hy2 := (insert_by_label_perm a rest).mem_iff.mp hy
      rcases List.mem_cons.mp hy2 with hyr | hyr
      · rw [hyr]; exact le_of_lt (lt_of_not_le hgt)
      · exact hx y hyr

/-- The label sort is sorted. -/
theorem sort_by_label_pairwise (l : List TikTokAccount) :
    (sort_by_label l).Pairwise (fun x y => x.account_label ≤ y.account_label) := by
  induction l with
  | nil => exact List.Pairwise.nil
  | cons x rest ih => exact insert_by_label_pairwise x (sort_by_label rest) ih

/-- Every entry of the parsed mapping has a non-empty label list: the
config parser drops entries whose cleaned list is empty. -/
theorem chat_account_mapping_lookup_ne_nil (payload : List (Int × List String))
    (chat : Int) (labels : List String)
    (h : dict_get (chat_account_mapping payload) chat = some labels) :
    labels.isEmpty = false := by
  unfold dict_get at h
  cases hf : (chat_account_mapping payload).find? (fun kv => kv.1 == chat) with
  | none => rw [hf] at h; simp at h
  | some kv =>
    rw [hf] at h
    have hv : kv.2 = labels := by simpa using h
    have hmem := List.mem_of_find?_eq_some hf
    rcases List.mem_filterMap.mp hmem with ⟨orig, _, heq⟩
    by_cases hempty :
        ((orig.2.map pyStrip).filter (fun s => !(s == ""))).isEmpty = true
    · rw [if_pos hempty] at heq
      exact absurd heq (by simp)
    · rw [if_neg hempty] at heq
      have hkv : kv = (orig.1, (orig.2.map pyStrip).filter (fun s => !(s == ""))) := by
        simpa using heq.symm
      rw [← hv, hkv]
      exact Bool.eq_false_iff.mpr hempty

/-! ## Claim C9 -/

/-- C9: target-account resolution returns exactly the accounts whose
labels are in the parsed chat→labels map entry when the chat appears in
the map, and all accounts otherwise, in both cases ordered by account
label ascending. -/
theorem resolve_target_accounts_spec (payload : List (Int × List String))
    (accounts : List TikTokAccount) (chat : Int) :
    (match dict_get (chat_account_mapping payload) chat with
      | some labels =>
          resolve_target_accounts (chat_account_mapping payload) accounts chat =
            (sort_by_label accounts).filter (fun a => labels.contains a.account_label)
      | none =>
          resolve_target_accounts (chat_account_mapping payload) accounts chat =
            sort_by_label accounts)
    ∧ (resolve_target_accounts (chat_account_mapping payload) accounts chat).Pairwise
        (fun x y => x.account_label ≤ y.account_label)
    ∧ (∀ a, a ∈ resolve_target_accounts (chat_account_mapping payload) accounts chat ↔
        a ∈ accounts ∧
          (match dict_get (chat_account_mapping payload) chat with
            | some labels => a.account_label ∈ labels
            | none => True)) := by
  cases hlk : dict_get (chat_account_mapping payload) chat with
  | none =>
    have hres : resolve_target_accounts (chat_account_mapping payload) accounts chat
        = sort_by_label accounts := by
      unfold resolve_target_accounts
      rw [hlk]
      rfl
    refine ⟨hres, ?_, ?_⟩
    · rw [hres]
      exact sort_by_label_pairwise accounts
    · intro a
      rw [hres]
      constructor
      · intro h
        exact ⟨(sort_by_label_perm accounts).mem_iff.mp h, trivial⟩
      · intro h
        exact (sort_by_label_perm accounts).mem_iff.mpr h.1
  | some labels =>
    have hne := chat_account_mapping_lookup_ne_nil payload chat labels hlk
    have hres : resolve_target_accounts (chat_account_mapping payload) accounts chat
        = (sort_by_label accounts).filter
            (fun a => labels.contains a.account_label) := by
      unfold resolve_target_accounts
      rw [hlk]
      dsimp only [Option.getD]
      rw [if_neg (by simp [hne])]
    refine ⟨hres, ?_, ?_⟩
    · rw [hres]
      exact (sort_by_label_pairwise accounts).sublist (List.filter_sublist _)
    · intro a
      rw [hres, List.mem_filter]
      constructor
      · rintro ⟨hmem, hcon⟩
        exact ⟨(sort_by_label_perm accounts).mem_iff.mp hmem, List.elem_iff.mp hcon⟩
      · rintro ⟨hmem, hlab⟩
        exact ⟨(sort_by_label_perm accounts).mem_iff.mpr hmem,
          List.elem_eq_true_of_mem hlab⟩
